import Mathlib

/-!
Verification of the asynchronous upload-progress pipeline of
`pages/api/upload-files.ts` and `pages/api/upload-progress.ts`.

The progress record, the store operations, the `updateProgress` function, the
completion handler, the validation flow of the submission handler, the payload
construction of `processFiles`, and the progress-query handler are embedded as
executable Lean functions.  The interleaved execution of the per-file tasks
launched by `processFiles` (under the `p-limit` concurrency cap) is embedded as
a small-step relation on a batch state: every per-record store update performed
by the TypeScript code is synchronous on the Node event loop, hence atomic, so
a run of the batch is a sequence of atomic `start` / `finish` / `complete` /
`drop` operations on the record.
-/

/-- The progress record, one per active upload identifier
(`lib/progressStore`'s `ProgressData`, as initialized and mutated in
`pages/api/upload-files.ts`).  JavaScript numbers holding the counters are
embedded as `Int`. -/
structure ProgressData where
  totalFiles : Int
  processedFiles : Int
  processingFiles : List String
  isComplete : Bool
deriving Repr, DecidableEq

/-- Modelled from the spec: `lib/progressStore` is not under `src/` (only its
callers are).  Section 4.1 specifies the ledger contract `set(id, record)`,
`get(id) → record | absent`, `delete(id)`, with `get` on an absent identifier
returning a sentinel absence and never raising.  The store is embedded as a
total function from identifiers to optional records. -/
def Store : Type := String → Option ProgressData

/-- Modelled from the spec: ledger `set(id, record)`. -/
def Store.set (s : Store) (id : String) (v : ProgressData) : Store :=
  fun k => if k = id then some v else s k

/-- Modelled from the spec: ledger `get(id) → record | absent`. -/
def Store.get (s : Store) (id : String) : Option ProgressData :=
  s id

/-- Modelled from the spec: ledger `delete(id)`. -/
def Store.delete (s : Store) (id : String) : Store :=
  fun k => if k = id then none else s k

/-- A store holding no records; the ledger state before a batch is submitted. -/
def emptyStore : Store := fun _ => none

/-- The `updates` argument of `updateProgress` in `pages/api/upload-files.ts`
(lines 397-404): each field optional, absent fields skipped by the
truthiness checks in the function body. -/
structure ProgressUpdates where
  processedFilesIncrement : Option Int
  processingFiles : Option (List String)
  processingFilesRemove : Option (List String)
deriving Repr

/-- The body of `updateProgress` applied to a present record
(`pages/api/upload-files.ts` lines 411-435): optionally add the increment
(JavaScript truthiness: an increment of 0 is falsy and skipped), optionally
push the added in-flight paths, optionally filter out the removed paths,
clamp `processedFiles` at `totalFiles`, and set `isComplete` once
`processedFiles == totalFiles`. -/
def applyUpdates (progress : ProgressData) (updates : ProgressUpdates) : ProgressData :=
  let u1 : ProgressData :=
    match updates.processedFilesIncrement with
    | some k =>
        if k ≠ 0 then { progress with processedFiles := progress.processedFiles + k }
        else progress
    | none => progress
  let u2 : ProgressData :=
    match updates.processingFiles with
    | some adds => { u1 with processingFiles := u1.processingFiles ++ adds }
    | none => u1
  let u3 : ProgressData :=
    match updates.processingFilesRemove with
    | some rems =>
        { u2 with processingFiles := u2.processingFiles.filter (fun f => !(rems.contains f)) }
    | none => u2
  let u4 : ProgressData :=
    if u3.totalFiles < u3.processedFiles then { u3 with processedFiles := u3.totalFiles }
    else u3
  if u4.processedFiles = u4.totalFiles then { u4 with isComplete := true } else u4

/-- `updateProgress` (`pages/api/upload-files.ts` lines 397-440): a missing
record means the update is dropped with a log line and the store is left
unchanged. -/
def updateProgress (store : Store) (uploadId : String) (updates : ProgressUpdates) : Store :=
  match Store.get store uploadId with
  | none => store
  | some progress => Store.set store uploadId (applyUpdates progress updates)

/-- The completion handler attached to `processFiles` in `handleFileUpload`
(lines 210-224): if the record is still present, set `isComplete` and store it
back (deletion is scheduled separately). -/
def markComplete (store : Store) (uploadId : String) : Store :=
  match Store.get store uploadId with
  | none => store
  | some progress => Store.set store uploadId { progress with isComplete := true }

/-- The record as initialized by `handleFileUpload` (lines 193-199) for a
batch of `n` accepted files. -/
def initProgress (n : Nat) : ProgressData :=
  { totalFiles := (n : Int), processedFiles := 0, processingFiles := [], isComplete := false }

/-- The update performed at the top of each per-file task (lines 365-368):
record the file's relative path as in flight. -/
def startUpdate (rel : String) : ProgressUpdates :=
  { processedFilesIncrement := none, processingFiles := some [rel], processingFilesRemove := none }

/-- The update performed in the per-file task's `finally` block
(lines 383-390): remove the file's relative path and count it processed. -/
def finishUpdate (rel : String) : ProgressUpdates :=
  { processedFilesIncrement := some 1, processingFiles := none, processingFilesRemove := some [rel] }

/-- One per-file task body of `processFiles` (lines 344-391): the start
update, the downstream `axios.post` whose outcome is `callResult`
(an exception is caught and only logged, lines 377-382), then the finish
update in the `finally` position. -/
def fileTaskBody (store : Store) (uploadId : String) (rel : String)
    (callResult : Except String Unit) : Store :=
  let s1 := updateProgress store uploadId (startUpdate rel)
  let s2 :=
    match callResult with
    | Except.ok _ => s1
    | Except.error _ => s1
  updateProgress s2 uploadId (finishUpdate rel)

/-- `defaultConcurrency` in `processFiles` (line 326). -/
def defaultConcurrency : Nat := 1

/-- The concurrency-limit computation of `processFiles` (lines 327-334):
`LANGFLOW_WORKERS` parsed with `parseInt`; an unset variable or a `NaN` parse
is embedded as `none`; a non-positive parse falls back to the default. -/
def computeConcurrencyLimit (langflowWorkers : Option Int) : Nat :=
  match langflowWorkers with
  | none => defaultConcurrency
  | some k => if k ≤ 0 then defaultConcurrency else k.toNat

/-- Scheduling state of one per-file task: not yet admitted by `p-limit`,
between its start update and its finish update, or finished. -/
inductive TaskStatus where
  | pending
  | active
  | done
deriving Repr, DecidableEq

/-- Number of tasks currently between their start and finish updates. -/
def activeCount (tasks : List (String × TaskStatus)) : Nat :=
  tasks.countP (fun x => decide (x.2 = TaskStatus.active))

/-- Number of tasks that have run their finish update. -/
def doneCount (tasks : List (String × TaskStatus)) : Nat :=
  tasks.countP (fun x => decide (x.2 = TaskStatus.done))

/-- Relative paths of the tasks currently between start and finish. -/
def activePaths (tasks : List (String × TaskStatus)) : List String :=
  (tasks.filter (fun x => decide (x.2 = TaskStatus.active))).map Prod.fst

/-- State of one batch run: the ledger plus each per-file task's scheduling
state, the task order matching the submitted file list. -/
structure BatchState where
  store : Store
  tasks : List (String × TaskStatus)

/-- Atomic operations of one batch run on its record, as interleaved on the
Node event loop.  `start` is admission by `p-limit` (only when fewer than
`L` tasks are active) followed by the synchronous start update; `finish` is
the synchronous `finally` update of an active task; `complete` is the
coordinator's completion handler, which runs only once every task has
finished; `drop` is deletion of the record (the scheduled retention deletion
or the error-path deletion), allowed at any instant as a conservative
over-approximation of its real timings. -/
inductive BatchStep (u : String) (L : Nat) : BatchState → BatchState → Prop where
  | start (store : Store) (l r : List (String × TaskStatus)) (q : String)
      (hlim : activeCount (l ++ (q, TaskStatus.pending) :: r) < L) :
      BatchStep u L ⟨store, l ++ (q, TaskStatus.pending) :: r⟩
        ⟨updateProgress store u (startUpdate q), l ++ (q, TaskStatus.active) :: r⟩
  | finish (store : Store) (l r : List (String × TaskStatus)) (q : String) :
      BatchStep u L ⟨store, l ++ (q, TaskStatus.active) :: r⟩
        ⟨updateProgress store u (finishUpdate q), l ++ (q, TaskStatus.done) :: r⟩
  | complete (store : Store) (tasks : List (String × TaskStatus))
      (hall : ∀ x ∈ tasks, x.2 = TaskStatus.done) :
      BatchStep u L ⟨store, tasks⟩ ⟨markComplete store u, tasks⟩
  | drop (store : Store) (tasks : List (String × TaskStatus)) :
      BatchStep u L ⟨store, tasks⟩ ⟨Store.delete store u, tasks⟩

/-- Zero or more atomic batch operations. -/
def StepStar (u : String) (L : Nat) : BatchState → BatchState → Prop :=
  Relation.ReflTransGen (BatchStep u L)

/-- The batch state right after `handleFileUpload` initializes the record
(lines 193-199) and before `processFiles` has run any task. -/
def initState (u : String) (fs : List String) : BatchState :=
  ⟨Store.set emptyStore u (initProgress fs.length),
   fs.map (fun q => (q, TaskStatus.pending))⟩

/-- States of a batch run for upload identifier `u`, submitted file paths
`fs` and concurrency limit `L` that some interleaving of the per-file tasks,
the completion handler and the deletions can reach. -/
def Reachable (u : String) (fs : List String) (L : Nat) (s : BatchState) : Prop :=
  StepStar u L (initState u fs) s

/-- The downstream request body built by `processFiles` for one file
(lines 351-361): the generated `session_id`, the `path` tweak and the
`metadata` tweak.  Metadata entries (single-key JSON objects) are embedded as
key/value pairs. -/
structure FilePayload where
  session_id : String
  path : String
  metadata : List (String × String)
deriving Repr, DecidableEq

/-- `path.posix.join` on the three segments used at lines 348-350; the
segments involved are plain non-empty relative components, for which POSIX
join is interposition of `/`. -/
def posixJoin3 (a b c : String) : String :=
  String.intercalate "/" [a, b, c]

/-- The metadata list of `processFiles` (line 340):
`[{ conversation_name: collectionName }, ...labels]`. -/
def metadataList (collectionName : String) (labels : List (String × String)) :
    List (String × String) :=
  ("conversation_name", collectionName) :: labels

/-- The payload for one file (lines 345-361): the per-call session id, the
destination path joined in forward-slash form with backslashes replaced, and
the shared metadata list. -/
def buildPayload (langflowCollectionPath collectionName : String)
    (labels : List (String × String)) (sessionId rel : String) : FilePayload :=
  { session_id := sessionId,
    path := posixJoin3 langflowCollectionPath collectionName (rel.replace "\\" "/"),
    metadata := metadataList collectionName labels }

/-- The payloads of a whole batch, in submission order; `gen i` is the
`uuidv4()` value generated by the `i`-th per-file task (line 351). -/
def processFilesPayloads (files : List String) (gen : Nat → String)
    (langflowCollectionPath collectionName : String)
    (labels : List (String × String)) : List FilePayload :=
  ((List.range files.length).zip files).map
    (fun x => buildPayload langflowCollectionPath collectionName labels (gen x.1) x.2)

/-- The submission request as seen by `handleFileUpload` after form parsing,
together with the outcomes of its filesystem effects and of the error-path
re-parse: `collectionExists` is the `fs.existsSync` answer (line 179),
`mkdirOk` whether `fs.mkdirSync` succeeds (line 185), `persistOk` whether
`handleFiles` and `saveMetadata` succeed (lines 203-206), `errorMessage` the
`message` of the error thrown on a failure, and `reparse` the result of the
catch-block's second `parseForm` (lines 238-247): `none` if it rejects,
otherwise the `uploadId` field it extracts. -/
structure SubmitInput where
  uploadId : Option String
  collectionName : Option String
  collectionExists : Bool
  files : List String
  mkdirOk : Bool
  persistOk : Bool
  errorMessage : String
  reparse : Option (Option String)

/-- The handler's observable outcome: HTTP status, response body fields, and
the ledger when the handler returns. -/
structure SubmitResult where
  status : Nat
  success : Bool
  message : String
  store : Store

/-- The catch block of `handleFileUpload` (lines 235-253): attempt the
re-parse; if it yields an `uploadId`, delete that record; reply 500 with the
error's message. -/
def handleUploadError (store : Store) (inp : SubmitInput) : SubmitResult :=
  let store2 :=
    match inp.reparse with
    | some (some uid) => Store.delete store uid
    | _ => store
  { status := 500, success := false, message := inp.errorMessage, store := store2 }

/-- The submission handler `handleFileUpload` (lines 143-254), from the point
where the form has been parsed: the uploadId check (163), the collectionName
check (169), the collection-conflict check (179), directory creation (185),
record initialization (194), file persistence (203-206), and the immediate
200 reply (234).  Failures of the filesystem effects throw into the catch
block. -/
def handleFileUpload (store : Store) (inp : SubmitInput) : SubmitResult :=
  match inp.uploadId with
  | none =>
      { status := 400, success := false, message := "Upload ID is required.", store := store }
  | some uploadId =>
      match inp.collectionName with
      | none =>
          { status := 400, success := false, message := "Collection name is required.",
            store := store }
      | some _ =>
          if inp.collectionExists then
            { status := 409, success := false, message := "Collection already exists.",
              store := store }
          else if !inp.mkdirOk then
            handleUploadError store inp
          else
            let store1 := Store.set store uploadId (initProgress inp.files.length)
            if !inp.persistOk then
              handleUploadError store1 inp
            else
              { status := 200, success := true,
                message := "Files uploaded and processing started.", store := store1 }

/-- The progress-query handler `handleProgress`
(`pages/api/upload-progress.ts`): 405 for non-GET, 400 for a missing
identifier, 404 for an absent record, otherwise 200 with the record
verbatim. -/
def handleProgress (method : String) (store : Store) (uploadId : Option String) :
    Nat × Option ProgressData :=
  if method ≠ "GET" then (405, none)
  else
    match uploadId with
    | none => (400, none)
    | some id =>
        match Store.get store id with
        | none => (404, none)
        | some progress => (200, some progress)

/-! ### Basic store and update lemmas -/

lemma Store.get_set_self (s : Store) (id : String) (v : ProgressData) :
    Store.get (Store.set s id v) id = some v := by
  simp [Store.get, Store.set]

lemma Store.get_set_ne (s : Store) (id k : String) (v : ProgressData) (h : k ≠ id) :
    Store.get (Store.set s id v) k = Store.get s k := by
  simp [Store.get, Store.set, h]

lemma Store.get_delete_self (s : Store) (id : String) :
    Store.get (Store.delete s id) id = none := by
  simp [Store.get, Store.delete]

lemma updateProgress_absent (s : Store) (id : String) (upd : ProgressUpdates)
    (h : Store.get s id = none) : updateProgress s id upd = s := by
  simp [updateProgress, h]

lemma updateProgress_present (s : Store) (id : String) (upd : ProgressUpdates)
    (r : ProgressData) (h : Store.get s id = some r) :
    updateProgress s id upd = Store.set s id (applyUpdates r upd) := by
  simp [updateProgress, h]

lemma markComplete_absent (s : Store) (id : String) (h : Store.get s id = none) :
    markComplete s id = s := by
  simp [markComplete, h]

lemma markComplete_present (s : Store) (id : String) (r : ProgressData)
    (h : Store.get s id = some r) :
    markComplete s id = Store.set s id { r with isComplete := true } := by
  simp [markComplete, h]

lemma applyUpdates_startUpdate (r : ProgressData) (q : String)
    (hle : r.processedFiles ≤ r.totalFiles) (hne : r.processedFiles ≠ r.totalFiles) :
    applyUpdates r (startUpdate q) = { r with processingFiles := r.processingFiles ++ [q] } := by
  have h1 : ¬ r.totalFiles < r.processedFiles := not_lt.2 hle
  simp [applyUpdates, startUpdate, h1, hne]

lemma applyUpdates_finishUpdate (r : ProgressData) (q : String)
    (h : r.processedFiles + 1 ≤ r.totalFiles) :
    applyUpdates r (finishUpdate q) =
      { r with
          processedFiles := r.processedFiles + 1,
          processingFiles :=
            r.processingFiles.filter (fun f => !(([q] : List String).contains f)),
          isComplete := if r.processedFiles + 1 = r.totalFiles then true else r.isComplete } := by
  have h1 : ¬ r.totalFiles < r.processedFiles + 1 := not_lt.2 h
  by_cases hc : r.processedFiles + 1 = r.totalFiles <;>
    simp [applyUpdates, finishUpdate, h1, hc]

lemma applyUpdates_keeps_complete (r : ProgressData) (upd : ProgressUpdates)
    (h : r.isComplete = true) : (applyUpdates r upd).isComplete = true := by
  obtain ⟨i, a, rem⟩ := upd
  cases i <;> cases a <;> cases rem <;>
    simp only [applyUpdates] <;>
    (repeat' split) <;> simp_all

/-! ### Counting lemmas on task lists -/

lemma activeCount_mid (l r : List (String × TaskStatus)) (q : String) (st : TaskStatus) :
    activeCount (l ++ (q, st) :: r) =
      activeCount l + activeCount r + (if st = TaskStatus.active then 1 else 0) := by
  cases st <;> simp [activeCount, List.countP_cons]
  all_goals omega

lemma doneCount_mid (l r : List (String × TaskStatus)) (q : String) (st : TaskStatus) :
    doneCount (l ++ (q, st) :: r) =
      doneCount l + doneCount r + (if st = TaskStatus.done then 1 else 0) := by
  cases st <;> simp [doneCount, List.countP_cons]
  all_goals omega

lemma activePaths_mid (l r : List (String × TaskStatus)) (q : String) (st : TaskStatus) :
    activePaths (l ++ (q, st) :: r) =
      activePaths l ++ ((if st = TaskStatus.active then [q] else []) ++ activePaths r) := by
  cases st <;> simp [activePaths, List.filter_append, List.filter_cons]

lemma activeCount_le_length (tasks : List (String × TaskStatus)) :
    activeCount tasks ≤ tasks.length := by
  unfold activeCount
  exact List.countP_le_length _

lemma doneCount_le_length (tasks : List (String × TaskStatus)) :
    doneCount tasks ≤ tasks.length := by
  unfold doneCount
  exact List.countP_le_length _

lemma activePaths_length (tasks : List (String × TaskStatus)) :
    (activePaths tasks).length = activeCount tasks := by
  simp [activePaths, activeCount, List.countP_eq_length_filter]

lemma activePaths_nil_of_all_done (tasks : List (String × TaskStatus))
    (hall : ∀ x ∈ tasks, x.2 = TaskStatus.done) : activePaths tasks = [] := by
  simp only [activePaths, List.map_eq_nil_iff, List.filter_eq_nil_iff]
  intro x hx
  simp [hall x hx]

lemma all_done_of_doneCount_eq (tasks : List (String × TaskStatus))
    (h : doneCount tasks = tasks.length) : ∀ x ∈ tasks, x.2 = TaskStatus.done := by
  intro x hx
  have := (List.countP_eq_length.mp h) x hx
  simpa using this

lemma doneCount_eq_of_all_done (tasks : List (String × TaskStatus))
    (hall : ∀ x ∈ tasks, x.2 = TaskStatus.done) : doneCount tasks = tasks.length :=
  List.countP_eq_length.mpr (fun x hx => by simp [hall x hx])

/-! ### The inductive invariant of a batch run -/

/-- Invariant tying the record (when still present) to the scheduling state:
the file list is fixed, at most `L` tasks are active, `totalFiles` is the
batch size, `processedFiles` counts exactly the finished tasks, the in-flight
list is covered by the multiset of active tasks' paths, a complete record has
`processedFiles = totalFiles`, and once every task of a non-empty batch has
finished the record is marked complete. -/
structure BatchInv (u : String) (fs : List String) (L : Nat) (s : BatchState) : Prop where
  tasks_fst : s.tasks.map Prod.fst = fs
  active_le : activeCount s.tasks ≤ L
  rec_ok : ∀ r, Store.get s.store u = some r →
    r.totalFiles = (s.tasks.length : Int) ∧
    r.processedFiles = (doneCount s.tasks : Int) ∧
    (r.processingFiles : Multiset String) ≤ (activePaths s.tasks : Multiset String) ∧
    (r.isComplete = true → r.processedFiles = r.totalFiles) ∧
    (doneCount s.tasks = s.tasks.length → s.tasks ≠ [] → r.isComplete = true)

lemma doneCount_init (fs : List String) :
    doneCount (fs.map (fun q => (q, TaskStatus.pending))) = 0 := by
  unfold doneCount
  rw [List.countP_map]
  rw [show ((fun x : String × TaskStatus => decide (x.2 = TaskStatus.done)) ∘
      fun q : String => (q, TaskStatus.pending)) = fun _ => false from rfl]
  simp

lemma activeCount_init (fs : List String) :
    activeCount (fs.map (fun q => (q, TaskStatus.pending))) = 0 := by
  unfold activeCount
  rw [List.countP_map]
  rw [show ((fun x : String × TaskStatus => decide (x.2 = TaskStatus.active)) ∘
      fun q : String => (q, TaskStatus.pending)) = fun _ => false from rfl]
  simp

lemma batchInv_init (u : String) (fs : List String) (L : Nat) :
    BatchInv u fs L (initState u fs) := by
  refine ⟨?_, ?_, ?_⟩
  · rw [show (initState u fs).tasks = fs.map (fun q => (q, TaskStatus.pending)) from rfl]
    rw [List.map_map]
    rw [show (Prod.fst ∘ fun q : String => (q, TaskStatus.pending)) = id from rfl]
    exact List.map_id fs
  · rw [show (initState u fs).tasks = fs.map (fun q => (q, TaskStatus.pending)) from rfl]
    rw [activeCount_init]
    exact Nat.zero_le L
  · intro r hr
    simp only [initState] at hr
    rw [Store.get_set_self] at hr
    cases hr
    refine ⟨by simp [initProgress, initState], ?_, ?_, ?_, ?_⟩
    · rw [show (initState u fs).tasks = fs.map (fun q => (q, TaskStatus.pending)) from rfl]
      rw [doneCount_init]
      simp [initProgress]
    · simp [initProgress]
    · simp [initProgress]
    · intro hdone hne
      exfalso
      rw [show (initState u fs).tasks = fs.map (fun q => (q, TaskStatus.pending)) from rfl]
        at hdone
      rw [doneCount_init, List.length_map] at hdone
      apply hne
      rw [show (initState u fs).tasks = fs.map (fun q => (q, TaskStatus.pending)) from rfl]
      have hfs : fs = [] := List.length_eq_zero.mp hdone.symm
      simp [hfs]

lemma activePaths_mid_active (l r : List (String × TaskStatus)) (q : String) :
    activePaths (l ++ (q, TaskStatus.active) :: r) =
      activePaths l ++ q :: activePaths r := by
  simp [activePaths, List.filter_append, List.filter_cons]

lemma activePaths_mid_not (l r : List (String × TaskStatus)) (q : String) (st : TaskStatus)
    (h : st ≠ TaskStatus.active) :
    activePaths (l ++ (q, st) :: r) = activePaths l ++ activePaths r := by
  cases st
  · simp [activePaths, List.filter_append, List.filter_cons]
  · exact absurd rfl h
  · simp [activePaths, List.filter_append, List.filter_cons]

lemma batchInv_step (u : String) (fs : List String) (L : Nat) (s s' : BatchState)
    (hinv : BatchInv u fs L s) (hstep : BatchStep u L s s') : BatchInv u fs L s' := by
  obtain ⟨hfst, hact, hrec⟩ := hinv
  cases hstep with
  | start store l r q hlim =>
      refine ⟨?_, ?_, ?_⟩
      · simpa using hfst
      · rw [activeCount_mid] at hlim ⊢
        simp at hlim ⊢
        omega
      · intro rP hget0
        have hget' : Store.get (updateProgress store u (startUpdate q)) u = some rP := hget0
        rcases hget : Store.get store u with _ | rOld
        · rw [updateProgress_absent store u _ hget, hget] at hget'
          cases hget'
        · obtain ⟨ht0, hp0, hproc0, hcomp, hdone0⟩ := hrec rOld hget
          have ht : rOld.totalFiles = ((l ++ (q, TaskStatus.pending) :: r).length : Int) := ht0
          have hp : rOld.processedFiles =
              (doneCount (l ++ (q, TaskStatus.pending) :: r) : Int) := hp0
          have hproc : (↑rOld.processingFiles : Multiset String) ≤
              ↑(activePaths (l ++ (q, TaskStatus.pending) :: r)) := hproc0
          have hdlt : doneCount (l ++ (q, TaskStatus.pending) :: r) <
              (l ++ (q, TaskStatus.pending) :: r).length := by
            rw [doneCount_mid]
            have h1 := doneCount_le_length l
            have h2 := doneCount_le_length r
            simp
            omega
          have hlt : rOld.processedFiles < rOld.totalFiles := by
            rw [hp, ht]
            exact_mod_cast hdlt
          have hle : rOld.processedFiles ≤ rOld.totalFiles := le_of_lt hlt
          have hne : rOld.processedFiles ≠ rOld.totalFiles := ne_of_lt hlt
          have hrP : rP = { rOld with processingFiles := rOld.processingFiles ++ [q] } := by
            rw [updateProgress_present store u _ rOld hget, Store.get_set_self] at hget'
            rw [applyUpdates_startUpdate rOld q hle hne] at hget'
            exact (Option.some.inj hget').symm
          subst hrP
          refine ⟨?_, ?_, ?_, ?_, ?_⟩
          · show rOld.totalFiles = _
            rw [ht]
            simp
          · show rOld.processedFiles = _
            rw [hp]
            show _ = ((doneCount (l ++ (q, TaskStatus.active) :: r) : Nat) : Int)
            rw [doneCount_mid, doneCount_mid]
            simp
          · show (↑(rOld.processingFiles ++ [q]) : Multiset String) ≤
                ↑(activePaths (l ++ (q, TaskStatus.active) :: r))
            rw [activePaths_mid_not l r q TaskStatus.pending (by simp)] at hproc
            rw [activePaths_mid_active l r q]
            rw [Multiset.le_iff_count] at hproc ⊢
            intro a
            have hc := hproc a
            rw [Multiset.coe_count, Multiset.coe_count] at hc
            rw [Multiset.coe_count, Multiset.coe_count]
            simp only [List.count_append] at hc
            by_cases haq : a = q
            · subst haq
              simp only [List.count_append, List.count_cons_self,
                List.count_singleton_self, List.count_nil]
              omega
            · simp only [List.count_append, List.count_cons_of_ne haq, List.count_nil]
              omega
          · intro hC
            exfalso
            have h4 := hcomp hC
            rw [hp, ht] at h4
            have h5 : doneCount (l ++ (q, TaskStatus.pending) :: r) =
                (l ++ (q, TaskStatus.pending) :: r).length := by exact_mod_cast h4
            omega
          · intro hEq0 hne2
            exfalso
            have hEq : doneCount (l ++ (q, TaskStatus.active) :: r) =
                (l ++ (q, TaskStatus.active) :: r).length := hEq0
            rw [doneCount_mid] at hEq
            have h1 := doneCount_le_length l
            have h2 := doneCount_le_length r
            simp at hEq
            omega
  | finish store l r q =>
      refine ⟨?_, ?_, ?_⟩
      · simpa using hfst
      · have hact' : activeCount (l ++ (q, TaskStatus.active) :: r) ≤ L := hact
        rw [activeCount_mid] at hact'
        show activeCount (l ++ (q, TaskStatus.done) :: r) ≤ L
        rw [activeCount_mid]
        simp at hact' ⊢
        omega
      · intro rP hget0
        have hget' : Store.get (updateProgress store u (finishUpdate q)) u = some rP := hget0
        rcases hget : Store.get store u with _ | rOld
        · rw [updateProgress_absent store u _ hget, hget] at hget'
          cases hget'
        · obtain ⟨ht0, hp0, hproc0, hcomp, hdone0⟩ := hrec rOld hget
          have ht : rOld.totalFiles = ((l ++ (q, TaskStatus.active) :: r).length : Int) := ht0
          have hp : rOld.processedFiles =
              (doneCount (l ++ (q, TaskStatus.active) :: r) : Int) := hp0
          have hproc : (↑rOld.processingFiles : Multiset String) ≤
              ↑(activePaths (l ++ (q, TaskStatus.active) :: r)) := hproc0
          have hdlt : doneCount (l ++ (q, TaskStatus.active) :: r) <
              (l ++ (q, TaskStatus.active) :: r).length := by
            rw [doneCount_mid]
            have h1 := doneCount_le_length l
            have h2 := doneCount_le_length r
            simp
            omega
          have hplt : rOld.processedFiles + 1 ≤ rOld.totalFiles := by
            rw [hp, ht]
            have h6 : doneCount (l ++ (q, TaskStatus.active) :: r) + 1 ≤
                (l ++ (q, TaskStatus.active) :: r).length := hdlt
            exact_mod_cast h6
          have hrP : rP = { rOld with
              processedFiles := rOld.processedFiles + 1,
              processingFiles := rOld.processingFiles.filter
                (fun f => !(([q] : List String).contains f)),
              isComplete := if rOld.processedFiles + 1 = rOld.totalFiles then true
                else rOld.isComplete } := by
            rw [updateProgress_present store u _ rOld hget, Store.get_set_self] at hget'
            rw [applyUpdates_finishUpdate rOld q hplt] at hget'
            exact (Option.some.inj hget').symm
          subst hrP
          refine ⟨?_, ?_, ?_, ?_, ?_⟩
          · show rOld.totalFiles = _
            rw [ht]
            simp
          · show rOld.processedFiles + 1 = _
            rw [hp]
            show _ = ((doneCount (l ++ (q, TaskStatus.done) :: r) : Nat) : Int)
            rw [doneCount_mid, doneCount_mid]
            simp
          · show (↑(rOld.processingFiles.filter
                (fun f => !(([q] : List String).contains f))) : Multiset String) ≤
                ↑(activePaths (l ++ (q, TaskStatus.done) :: r))
            rw [activePaths_mid_active l r q] at hproc
            rw [activePaths_mid_not l r q TaskStatus.done (by simp)]
            rw [Multiset.le_iff_count] at hproc ⊢
            intro a
            have hc := hproc a
            rw [Multiset.coe_count, Multiset.coe_count] at hc
            rw [Multiset.coe_count, Multiset.coe_count]
            simp only [List.count_append] at hc ⊢
            by_cases haq : a = q
            · subst haq
              have hzero : List.count a (rOld.processingFiles.filter
                  (fun f => !(([a] : List String).contains f))) = 0 := by
                rw [List.count_eq_zero]
                intro hmem
                rw [List.mem_filter] at hmem
                simp at hmem
              rw [hzero]
              omega
            · have hle2 : List.count a (rOld.processingFiles.filter
                  (fun f => !(([q] : List String).contains f))) ≤
                  List.count a rOld.processingFiles :=
                (List.filter_sublist _).count_le a
              simp only [List.count_cons_of_ne haq] at hc
              omega
          · intro hC0
            have hC : (if rOld.processedFiles + 1 = rOld.totalFiles then true
                else rOld.isComplete) = true := hC0
            show rOld.processedFiles + 1 = rOld.totalFiles
            by_cases hcEq : rOld.processedFiles + 1 = rOld.totalFiles
            · exact hcEq
            · exfalso
              rw [if_neg hcEq] at hC
              have h4 := hcomp hC
              omega
          · intro hEq0 hne2
            have hEq : doneCount (l ++ (q, TaskStatus.done) :: r) =
                (l ++ (q, TaskStatus.done) :: r).length := hEq0
            have hpt : rOld.processedFiles + 1 = rOld.totalFiles := by
              rw [hp, ht]
              rw [doneCount_mid] at hEq
              simp at hEq
              rw [doneCount_mid]
              simp
              omega
            show (if rOld.processedFiles + 1 = rOld.totalFiles then true
                else rOld.isComplete) = true
            rw [if_pos hpt]
  | complete store tasks hall =>
      refine ⟨hfst, hact, ?_⟩
      intro rP hget0
      have hget' : Store.get (markComplete store u) u = some rP := hget0
      rcases hget : Store.get store u with _ | rOld
      · rw [markComplete_absent store u hget, hget] at hget'
        cases hget'
      · obtain ⟨ht0, hp0, hproc0, hcomp, hdone0⟩ := hrec rOld hget
        have ht : rOld.totalFiles = (tasks.length : Int) := ht0
        have hp : rOld.processedFiles = (doneCount tasks : Int) := hp0
        have hrP : rP = { rOld with isComplete := true } := by
          rw [markComplete_present store u rOld hget, Store.get_set_self] at hget'
          exact (Option.some.inj hget').symm
        subst hrP
        have hdl : doneCount tasks = tasks.length := doneCount_eq_of_all_done tasks hall
        refine ⟨ht0, hp0, hproc0, ?_, ?_⟩
        · intro hC
          show rOld.processedFiles = rOld.totalFiles
          rw [hp, ht, hdl]
        · intro hEq hne2
          rfl
  | drop store tasks =>
      refine ⟨hfst, hact, ?_⟩
      intro rP hget0
      have hget' : Store.get (Store.delete store u) u = some rP := hget0
      rw [Store.get_delete_self] at hget'
      cases hget'

lemma reachable_inv (u : String) (fs : List String) (L : Nat) (s : BatchState)
    (h : Reachable u fs L s) : BatchInv u fs L s := by
  induction h with
  | refl => exact batchInv_init u fs L
  | tail _ hstep ih => exact batchInv_step u fs L _ _ ih hstep

lemma doneCount_le_of_step (u : String) (L : Nat) (s s' : BatchState)
    (hstep : BatchStep u L s s') : doneCount s.tasks ≤ doneCount s'.tasks := by
  cases hstep with
  | start store l r q hlim =>
      show doneCount (l ++ (q, TaskStatus.pending) :: r) ≤
        doneCount (l ++ (q, TaskStatus.active) :: r)
      rw [doneCount_mid, doneCount_mid]
      simp
  | finish store l r q =>
      show doneCount (l ++ (q, TaskStatus.active) :: r) ≤
        doneCount (l ++ (q, TaskStatus.done) :: r)
      rw [doneCount_mid, doneCount_mid]
      simp
  | complete store tasks hall => exact le_refl _
  | drop store tasks => exact le_refl _

lemma doneCount_le_of_star (u : String) (L : Nat) (s s' : BatchState)
    (h : StepStar u L s s') : doneCount s.tasks ≤ doneCount s'.tasks := by
  induction h with
  | refl => exact le_refl _
  | tail _ hstep ih => exact le_trans ih (doneCount_le_of_step u L _ _ hstep)

/-- Once every record that can be observed under `u` is marked complete, any
single batch operation preserves that: `updateProgress` never clears
`isComplete`, the completion handler sets it, and deletion removes the record
altogether. -/
lemma complete_persists_step (u : String) (L : Nat) (s s' : BatchState)
    (hstep : BatchStep u L s s')
    (h : ∀ r, Store.get s.store u = some r → r.isComplete = true) :
    ∀ r', Store.get s'.store u = some r' → r'.isComplete = true := by
  cases hstep with
  | start store l r q hlim =>
      intro r' hget0
      have hget' : Store.get (updateProgress store u (startUpdate q)) u = some r' := hget0
      rcases hget : Store.get store u with _ | rOld
      · rw [updateProgress_absent store u _ hget, hget] at hget'
        cases hget'
      · rw [updateProgress_present store u _ rOld hget, Store.get_set_self] at hget'
        cases hget'
        exact applyUpdates_keeps_complete rOld _ (h rOld hget)
  | finish store l r q =>
      intro r' hget0
      have hget' : Store.get (updateProgress store u (finishUpdate q)) u = some r' := hget0
      rcases hget : Store.get store u with _ | rOld
      · rw [updateProgress_absent store u _ hget, hget] at hget'
        cases hget'
      · rw [updateProgress_present store u _ rOld hget, Store.get_set_self] at hget'
        cases hget'
        exact applyUpdates_keeps_complete rOld _ (h rOld hget)
  | complete store tasks hall =>
      intro r' hget0
      have hget' : Store.get (markComplete store u) u = some r' := hget0
      rcases hget : Store.get store u with _ | rOld
      · rw [markComplete_absent store u hget, hget] at hget'
        cases hget'
      · rw [markComplete_present store u rOld hget, Store.get_set_self] at hget'
        cases hget'
        rfl
  | drop store tasks =>
      intro r' hget0
      have hget' : Store.get (Store.delete store u) u = some r' := hget0
      rw [Store.get_delete_self] at hget'
      cases hget'

lemma complete_persists_star (u : String) (L : Nat) (s s' : BatchState)
    (h : StepStar u L s s')
    (hc : ∀ r, Store.get s.store u = some r → r.isComplete = true) :
    ∀ r', Store.get s'.store u = some r' → r'.isComplete = true := by
  induction h with
  | refl => exact hc
  | tail _ hstep ih => exact complete_persists_step u L _ _ hstep ih

/-- A record that is present and marked complete has all tasks finished, so
its in-flight list is empty. -/
lemma processing_empty_of_complete (u : String) (fs : List String) (L : Nat)
    (s : BatchState) (hinv : BatchInv u fs L s) (r : ProgressData)
    (hget : Store.get s.store u = some r) (hc : r.isComplete = true) :
    r.processedFiles = r.totalFiles ∧ r.processingFiles = [] := by
  obtain ⟨ht, hp, hproc, hcomp, hdone⟩ := hinv.rec_ok r hget
  refine ⟨hcomp hc, ?_⟩
  have hpt := hcomp hc
  rw [hp, ht] at hpt
  have hdl : doneCount s.tasks = s.tasks.length := by exact_mod_cast hpt
  have hall := all_done_of_doneCount_eq s.tasks hdl
  have hap : activePaths s.tasks = [] := activePaths_nil_of_all_done s.tasks hall
  rw [hap] at hproc
  have hz : (↑r.processingFiles : Multiset String) = 0 := by
    rw [← Multiset.le_zero]
    simpa using hproc
  exact (Multiset.coe_eq_zero r.processingFiles).mp hz

/-! ### Claim theorems -/

/-- C1: for every progress record held in the store for an active upload,
`0 ≤ processedFiles ≤ totalFiles` holds after initialization and after every
update of the batch run, and `processedFiles` never decreases across the
sequence of updates (hence across successive polls) for a given upload
identifier. -/
theorem progress_bounds_and_monotone (u : String) (fs : List String) (L : Nat)
    (s : BatchState) (h : Reachable u fs L s) :
    (∀ r, Store.get s.store u = some r →
      0 ≤ r.processedFiles ∧ r.processedFiles ≤ r.totalFiles) ∧
    (∀ s', StepStar u L s s' → ∀ r r', Store.get s.store u = some r →
      Store.get s'.store u = some r' → r.processedFiles ≤ r'.processedFiles) := by
  have hinv := reachable_inv u fs L s h
  constructor
  · intro r hget
    obtain ⟨ht, hp, _, _, _⟩ := hinv.rec_ok r hget
    constructor
    · rw [hp]
      exact_mod_cast Nat.zero_le _
    · rw [hp, ht]
      exact_mod_cast doneCount_le_length s.tasks
  · intro s' hstar r r' hget hget'
    have hinv' := reachable_inv u fs L s' (Relation.ReflTransGen.trans h hstar)
    obtain ⟨_, hp, _, _, _⟩ := hinv.rec_ok r hget
    obtain ⟨_, hp', _, _, _⟩ := hinv'.rec_ok r' hget'
    rw [hp, hp']
    exact_mod_cast doneCount_le_of_star u L s s' hstar

/-- Witness for C1 at the freshly initialized one-file batch. -/
theorem progress_bounds_and_monotone_witness :
    0 ≤ (initProgress 1).processedFiles ∧
      (initProgress 1).processedFiles ≤ (initProgress 1).totalFiles :=
  (progress_bounds_and_monotone "u" ["a"] 1 (initState "u" ["a"])
    Relation.ReflTransGen.refl).1 (initProgress 1) rfl

/-- C2: whenever a reachable record has `isComplete = true`, its
`processedFiles` equals `totalFiles` and `processingFiles` is empty; and once
`isComplete` is true it stays true in every later reachable state of that
record until the record is deleted. -/
theorem complete_is_final_and_persistent (u : String) (fs : List String) (L : Nat)
    (s : BatchState) (h : Reachable u fs L s) (r : ProgressData)
    (hget : Store.get s.store u = some r) (hc : r.isComplete = true) :
    (r.processedFiles = r.totalFiles ∧ r.processingFiles = []) ∧
    (∀ s', StepStar u L s s' → ∀ r', Store.get s'.store u = some r' →
      r'.isComplete = true) := by
  have hinv := reachable_inv u fs L s h
  refine ⟨processing_empty_of_complete u fs L s hinv r hget hc, ?_⟩
  intro s' hstar r' hget'
  refine complete_persists_star u L s s' hstar (fun rr hrr => ?_) r' hget'
  rw [hget] at hrr
  cases hrr
  exact hc

/-- Witness for C2 at the completed empty batch. -/
theorem complete_is_final_and_persistent_witness :
    (⟨0, 0, [], true⟩ : ProgressData).processedFiles =
        (⟨0, 0, [], true⟩ : ProgressData).totalFiles ∧
      (⟨0, 0, [], true⟩ : ProgressData).processingFiles = [] :=
  (complete_is_final_and_persistent "u" [] 1
    ⟨markComplete (Store.set emptyStore "u" (initProgress 0)) "u", []⟩
    (Relation.ReflTransGen.tail Relation.ReflTransGen.refl
      (BatchStep.complete _ [] (by simp)))
    ⟨0, 0, [], true⟩ rfl rfl).1

/-- C3: in every reachable state of a batch run whose limit is the
configured concurrency limit, at most that many per-file tasks are between
their start and finish updates (hence at most that many downstream calls run
simultaneously), and the record's `processingFiles` list never exceeds that
length. -/
theorem concurrency_bound (env : Option Int) (u : String) (fs : List String)
    (s : BatchState) (h : Reachable u fs (computeConcurrencyLimit env) s) :
    activeCount s.tasks ≤ computeConcurrencyLimit env ∧
    (∀ r, Store.get s.store u = some r →
      r.processingFiles.length ≤ computeConcurrencyLimit env) := by
  have hinv := reachable_inv u fs (computeConcurrencyLimit env) s h
  refine ⟨hinv.active_le, ?_⟩
  intro r hget
  obtain ⟨_, _, hproc, _, _⟩ := hinv.rec_ok r hget
  have hcard := Multiset.card_le_card hproc
  rw [Multiset.coe_card, Multiset.coe_card] at hcard
  rw [activePaths_length] at hcard
  exact le_trans hcard hinv.active_le

/-- Witness for C3 with an unset `LANGFLOW_WORKERS` (limit 1). -/
theorem concurrency_bound_witness :
    activeCount (initState "u" ["a"]).tasks ≤ computeConcurrencyLimit none ∧
      (initProgress 1).processingFiles.length ≤ computeConcurrencyLimit none :=
  ⟨(concurrency_bound none "u" ["a"] (initState "u" ["a"]) Relation.ReflTransGen.refl).1,
   (concurrency_bound none "u" ["a"] (initState "u" ["a"]) Relation.ReflTransGen.refl).2
     (initProgress 1) rfl⟩

/-- C4: the per-file finish update runs whether the downstream call succeeds
or throws (the task body is insensitive to the call outcome), and once every
task of a non-empty batch has finished the record shows
`processedFiles = totalFiles`, `isComplete = true`, and an empty
`processingFiles`, with no file left in flight. -/
theorem finish_runs_regardless_and_batch_completes :
    (∀ (store : Store) (u rel : String) (res : Except String Unit),
      fileTaskBody store u rel res = fileTaskBody store u rel (Except.ok ())) ∧
    (∀ (u : String) (fs : List String) (L : Nat) (s : BatchState),
      Reachable u fs L s → (∀ x ∈ s.tasks, x.2 = TaskStatus.done) → s.tasks ≠ [] →
      ∀ r, Store.get s.store u = some r →
        r.processedFiles = r.totalFiles ∧ r.isComplete = true ∧
          r.processingFiles = []) := by
  constructor
  · intro store u rel res
    cases res <;> rfl
  · intro u fs L s h hall hne r hget
    have hinv := reachable_inv u fs L s h
    obtain ⟨ht, hp, hproc, hcomp, hdone⟩ := hinv.rec_ok r hget
    have hdl := doneCount_eq_of_all_done s.tasks hall
    have hC := hdone hdl hne
    have hpe := processing_empty_of_complete u fs L s hinv r hget hC
    exact ⟨hpe.1, hC, hpe.2⟩

/-- Witness for C4: a one-file batch whose downstream call fails still ends
with a complete record and nothing in flight. -/
theorem finish_runs_regardless_witness :
    (fileTaskBody (Store.set emptyStore "u" (initProgress 1)) "u" "a"
        (Except.error "down") =
      fileTaskBody (Store.set emptyStore "u" (initProgress 1)) "u" "a"
        (Except.ok ())) ∧
    ((⟨1, 1, [], true⟩ : ProgressData).processedFiles =
        (⟨1, 1, [], true⟩ : ProgressData).totalFiles ∧
      (⟨1, 1, [], true⟩ : ProgressData).isComplete = true ∧
      (⟨1, 1, [], true⟩ : ProgressData).processingFiles = []) :=
  ⟨finish_runs_regardless_and_batch_completes.1 _ "u" "a" (Except.error "down"),
   finish_runs_regardless_and_batch_completes.2 "u" ["a"] 1
     ⟨updateProgress (updateProgress (Store.set emptyStore "u" (initProgress 1)) "u"
        (startUpdate "a")) "u" (finishUpdate "a"), [("a", TaskStatus.done)]⟩
     (Relation.ReflTransGen.tail (Relation.ReflTransGen.tail Relation.ReflTransGen.refl
        (BatchStep.start _ [] [] "a" (by decide)))
        (BatchStep.finish _ [] [] "a"))
     (by decide) (by decide) ⟨1, 1, [], true⟩ rfl⟩

/-- C5: validation is applied in the order missing `uploadId`, missing
`collectionName`, collection conflict, each producing its distinct
`{success: false, message}` rejection with statuses 400, 400, 409, while the
thrown filesystem errors yield status 500; and each of the three validation
rejections returns the store untouched, so no progress record is created. -/
theorem validation_order_and_statuses (store : Store) (inp : SubmitInput) :
    (inp.uploadId = none →
      handleFileUpload store inp =
        { status := 400, success := false, message := "Upload ID is required.",
          store := store }) ∧
    (inp.uploadId ≠ none → inp.collectionName = none →
      handleFileUpload store inp =
        { status := 400, success := false, message := "Collection name is required.",
          store := store }) ∧
    (inp.uploadId ≠ none → inp.collectionName ≠ none → inp.collectionExists = true →
      handleFileUpload store inp =
        { status := 409, success := false, message := "Collection already exists.",
          store := store }) ∧
    (inp.uploadId ≠ none → inp.collectionName ≠ none → inp.collectionExists = false →
      (inp.mkdirOk = false ∨ inp.persistOk = false) →
      (handleFileUpload store inp).status = 500 ∧
        (handleFileUpload store inp).success = false) := by
  refine ⟨?_, ?_, ?_, ?_⟩
  · intro h1
    simp [handleFileUpload, h1]
  · intro h1 h2
    rcases hu : inp.uploadId with _ | uid
    · exact absurd hu h1
    · simp [handleFileUpload, hu, h2]
  · intro h1 h2 h3
    rcases hu : inp.uploadId with _ | uid
    · exact absurd hu h1
    rcases hc : inp.collectionName with _ | cn
    · exact absurd hc h2
    simp [handleFileUpload, hu, hc, h3]
  · intro h1 h2 h3 h4
    rcases hu : inp.uploadId with _ | uid
    · exact absurd hu h1
    rcases hc : inp.collectionName with _ | cn
    · exact absurd hc h2
    rcases hm : inp.mkdirOk with _ | _
    · simp [handleFileUpload, handleUploadError, hu, hc, h3, hm]
    · rcases h4 with h4 | h4
      · rw [h4] at hm
        cases hm
      · simp [handleFileUpload, handleUploadError, hu, hc, h3, hm, h4]

/-- Witness for C5: a submission missing its upload identifier is rejected
with status 400 and an unchanged store. -/
theorem validation_order_and_statuses_witness :
    handleFileUpload emptyStore
        ⟨none, some "c", false, [], true, true, "boom", none⟩ =
      { status := 400, success := false, message := "Upload ID is required.",
        store := emptyStore } :=
  (validation_order_and_statuses emptyStore
    ⟨none, some "c", false, [], true, true, "boom", none⟩).1 rfl

/-- C6 counterexample: the first element of the downstream metadata list is
keyed `conversation_name`, not `collection` as the claim states. -/
theorem payload_metadata_key_cex :
    (buildPayload "/data-uploads" "c" [] "sid" "doc.txt").metadata.head? =
      some ("conversation_name", "c") ∧
    (buildPayload "/data-uploads" "c" [] "sid" "doc.txt").metadata.head? ≠
      some ("collection", "c") := by
  constructor
  · rfl
  · decide

/-- C6 (amended): every downstream payload of a batch carries the session id
generated for its call, the destination path joined in forward-slash form
from the download directory, the collection name and the backslash-normalized
relative path, and the metadata list `{conversation_name: collectionName}`
followed by the batch's labels in order; distinct calls get distinct session
ids whenever the generator is injective. -/
theorem payload_fields (files : List String) (gen : Nat → String)
    (dir c : String) (labels : List (String × String)) :
    (∀ (i : Nat) (rel : String), files[i]? = some rel →
      (processFilesPayloads files gen dir c labels)[i]? =
        some { session_id := gen i,
               path := posixJoin3 dir c (rel.replace "\\" "/"),
               metadata := ("conversation_name", c) :: labels }) ∧
    (Function.Injective gen →
      ((processFilesPayloads files gen dir c labels).map
        FilePayload.session_id).Nodup) := by
  constructor
  · intro i rel hrel
    have hi : i < files.length := by
      by_contra hlt
      rw [List.getElem?_eq_none (le_of_not_lt hlt)] at hrel
      cases hrel
    unfold processFilesPayloads
    rw [List.getElem?_map]
    have hz : ((List.range files.length).zip files)[i]? = some (i, rel) := by
      rw [List.getElem?_zip_eq_some]
      exact ⟨by simp [hi], hrel⟩
    rw [hz]
    rfl
  · intro hinj
    unfold processFilesPayloads
    rw [List.map_map]
    rw [show (FilePayload.session_id ∘ fun x : Nat × String =>
        buildPayload dir c labels (gen x.1) x.2) = gen ∘ Prod.fst from rfl]
    rw [← List.map_map]
    rw [List.map_fst_zip (List.range files.length) files (by simp)]
    exact (List.nodup_range files.length).map hinj

/-- Witness for C6 (amended) on a concrete one-file batch. -/
theorem payload_fields_witness :
    (processFilesPayloads ["doc.txt"] (fun _ => "sid") "/data-uploads" "c"
        [("k", "v")])[0]? =
      some { session_id := "sid",
             path := posixJoin3 "/data-uploads" "c" ("doc.txt".replace "\\" "/"),
             metadata := ("conversation_name", "c") :: [("k", "v")] } :=
  (payload_fields ["doc.txt"] (fun _ => "sid") "/data-uploads" "c" [("k", "v")]).1
    0 "doc.txt" rfl

/-- C7 counterexample: in a batch containing the same relative path twice,
with concurrency limit 2, a reachable state has that path twice in
`processingFiles` simultaneously. -/
theorem duplicate_path_in_processing_cex :
    ∃ s : BatchState, Reachable "u" ["a", "a"] 2 s ∧
      ∃ r, Store.get s.store "u" = some r ∧ ¬ r.processingFiles.Nodup := by
  refine ⟨⟨updateProgress (updateProgress (Store.set emptyStore "u" (initProgress 2)) "u"
      (startUpdate "a")) "u" (startUpdate "a"),
      [("a", TaskStatus.active), ("a", TaskStatus.active)]⟩, ?_,
      ⟨2, 0, ["a", "a"], false⟩, rfl, by decide⟩
  have step1 : BatchStep "u" 2 (initState "u" ["a", "a"])
      ⟨updateProgress (Store.set emptyStore "u" (initProgress 2)) "u" (startUpdate "a"),
        [("a", TaskStatus.active), ("a", TaskStatus.pending)]⟩ :=
    BatchStep.start _ [] [("a", TaskStatus.pending)] "a" (by decide)
  have step2 : BatchStep "u" 2
      ⟨updateProgress (Store.set emptyStore "u" (initProgress 2)) "u" (startUpdate "a"),
        [("a", TaskStatus.active), ("a", TaskStatus.pending)]⟩
      ⟨updateProgress (updateProgress (Store.set emptyStore "u" (initProgress 2)) "u"
          (startUpdate "a")) "u" (startUpdate "a"),
        [("a", TaskStatus.active), ("a", TaskStatus.active)]⟩ :=
    BatchStep.start _ [("a", TaskStatus.active)] [] "a" (by decide)
  exact Relation.ReflTransGen.tail
    (Relation.ReflTransGen.tail Relation.ReflTransGen.refl step1) step2

/-- C7 (amended): a relative path occurs in `processingFiles` at most once
per concurrently running task with that path; in particular, when the
batch's relative paths are pairwise distinct, `processingFiles` never holds
a path twice in any reachable state.  (With duplicate paths in one batch the
original claim fails, see the counterexample: both duplicates can be in
flight at once and both copies of the path are listed.) -/
theorem processing_nodup_of_distinct_paths (u : String) (fs : List String) (L : Nat)
    (s : BatchState) (h : Reachable u fs L s) (hnd : fs.Nodup) :
    ∀ r, Store.get s.store u = some r → r.processingFiles.Nodup := by
  intro r hget
  have hinv := reachable_inv u fs L s h
  obtain ⟨_, _, hproc, _, _⟩ := hinv.rec_ok r hget
  have hsub : List.Sublist (activePaths s.tasks) (s.tasks.map Prod.fst) :=
    List.Sublist.map Prod.fst (List.filter_sublist s.tasks)
  rw [hinv.tasks_fst] at hsub
  have hle : (↑(activePaths s.tasks) : Multiset String) ≤ ↑fs :=
    Multiset.coe_le.mpr (List.Sublist.subperm hsub)
  have hle2 : (↑r.processingFiles : Multiset String) ≤ ↑fs := le_trans hproc hle
  have hfs : Multiset.Nodup (↑fs : Multiset String) := Multiset.coe_nodup.mpr hnd
  exact Multiset.coe_nodup.mp (Multiset.nodup_of_le hle2 hfs)

/-- Witness for C7 (amended) at a freshly initialized distinct-path batch. -/
theorem processing_nodup_witness : (initProgress 2).processingFiles.Nodup :=
  processing_nodup_of_distinct_paths "u" ["a", "b"] 1 (initState "u" ["a", "b"])
    Relation.ReflTransGen.refl (by decide) (initProgress 2) rfl

/-- C8: a submission with zero files initializes the record with
`totalFiles = 0`, and after the completion handler (which for an empty batch
runs before any poll can be served) the first poll already returns status 200
with `isComplete = true`. -/
theorem zero_files_first_poll_complete (store : Store) (inp : SubmitInput) (u : String)
    (h1 : inp.uploadId = some u) (h2 : inp.collectionName ≠ none)
    (h3 : inp.collectionExists = false) (h4 : inp.mkdirOk = true)
    (h5 : inp.persistOk = true) (h6 : inp.files = []) :
    Store.get (handleFileUpload store inp).store u = some (initProgress 0) ∧
    (initProgress 0).totalFiles = 0 ∧
    handleProgress "GET" (markComplete (handleFileUpload store inp).store u) (some u) =
      (200, some ⟨0, 0, [], true⟩) := by
  rcases hc : inp.collectionName with _ | cn
  · exact absurd hc h2
  have hres : (handleFileUpload store inp).store = Store.set store u (initProgress 0) := by
    simp [handleFileUpload, h1, hc, h3, h4, h5, h6]
  rw [hres]
  refine ⟨Store.get_set_self store u _, rfl, ?_⟩
  rw [markComplete_present _ u (initProgress 0) (Store.get_set_self store u _)]
  simp [handleProgress, Store.get_set_self, initProgress]

/-- Witness for C8 on a concrete empty submission. -/
theorem zero_files_first_poll_complete_witness :
    Store.get (handleFileUpload emptyStore
        ⟨some "u", some "c", false, [], true, true, "boom", none⟩).store "u" =
      some (initProgress 0) ∧
    (initProgress 0).totalFiles = 0 ∧
    handleProgress "GET" (markComplete (handleFileUpload emptyStore
        ⟨some "u", some "c", false, [], true, true, "boom", none⟩).store "u")
      (some "u") =
      (200, some ⟨0, 0, [], true⟩) :=
  zero_files_first_poll_complete emptyStore
    ⟨some "u", some "c", false, [], true, true, "boom", none⟩ "u"
    rfl (by simp) rfl rfl rfl rfl

/-- C9 counterexample: when persistence fails after the record was created
and the error-path re-parse of the request does not yield the upload
identifier, the handler returns 500 but the record is left in the store,
contradicting the claim that it is always removed before returning. -/
theorem persist_error_record_left_cex :
    (handleFileUpload emptyStore
        ⟨some "u", some "c", false, ["a.txt"], true, false, "disk full", none⟩).status =
      500 ∧
    Store.get (handleFileUpload emptyStore
        ⟨some "u", some "c", false, ["a.txt"], true, false, "disk full", none⟩).store
      "u" = some (initProgress 1) :=
  ⟨rfl, rfl⟩

/-- C9 (amended): when persisting the files throws after validation passed,
the handler returns a server error (500, success false), and the record
created for the upload identifier has been removed from the store when the
handler returns if and only if the error-path re-parse of the request
succeeds and yields that identifier. -/
theorem persist_error_cleanup (store : Store) (inp : SubmitInput) (u : String)
    (h1 : inp.uploadId = some u) (h2 : inp.collectionName ≠ none)
    (h3 : inp.collectionExists = false) (h4 : inp.mkdirOk = true)
    (h5 : inp.persistOk = false) :
    (handleFileUpload store inp).status = 500 ∧
    (handleFileUpload store inp).success = false ∧
    (Store.get (handleFileUpload store inp).store u = none ↔
      inp.reparse = some (some u)) := by
  rcases hc : inp.collectionName with _ | cn
  · exact absurd hc h2
  have hres : handleFileUpload store inp =
      handleUploadError (Store.set store u (initProgress inp.files.length)) inp := by
    simp [handleFileUpload, h1, hc, h3, h4, h5]
  rw [hres]
  refine ⟨rfl, rfl, ?_⟩
  rcases hr : inp.reparse with _ | ou
  · simp [handleUploadError, hr, Store.get_set_self]
  · rcases ou with _ | v
    · simp [handleUploadError, hr, Store.get_set_self]
    · by_cases hv : v = u
      · subst hv
        simp [handleUploadError, hr, Store.get, Store.delete]
      · have hne : u ≠ v := fun hh => hv hh.symm
        simp [handleUploadError, hr, Store.get, Store.delete, Store.set, hne, hv]

/-- Witness for C9 (amended): with a successful re-parse yielding the upload
identifier, the 500 reply is accompanied by removal of the record. -/
theorem persist_error_cleanup_witness :
    (handleFileUpload emptyStore
        ⟨some "u", some "c", false, ["a.txt"], true, false, "disk full",
          some (some "u")⟩).status = 500 ∧
    Store.get (handleFileUpload emptyStore
        ⟨some "u", some "c", false, ["a.txt"], true, false, "disk full",
          some (some "u")⟩).store "u" = none := by
  have h := persist_error_cleanup emptyStore
    ⟨some "u", some "c", false, ["a.txt"], true, false, "disk full", some (some "u")⟩
    "u" rfl (by simp) rfl rfl rfl
  exact ⟨h.1, h.2.2.mpr rfl⟩

/-- C10: once the record for an upload identifier is deleted, the progress
query returns 404 with no snapshot, the ledger `get` returns the absence
sentinel, and neither `updateProgress` nor the completion handler recreates
or modifies anything for that identifier. -/
theorem deleted_record_stays_gone (store : Store) (u : String) (upd : ProgressUpdates) :
    Store.get (Store.delete store u) u = none ∧
    handleProgress "GET" (Store.delete store u) (some u) = (404, none) ∧
    updateProgress (Store.delete store u) u upd = Store.delete store u ∧
    markComplete (Store.delete store u) u = Store.delete store u := by
  refine ⟨Store.get_delete_self store u, ?_, ?_, ?_⟩
  · simp [handleProgress, Store.get_delete_self]
  · exact updateProgress_absent _ u upd (Store.get_delete_self store u)
  · exact markComplete_absent _ u (Store.get_delete_self store u)
